import Mathlib

/-!
Shallow embedding of `src/server.js` (DopaLAN match registry API).

The source is a single-threaded Express server holding two in-memory maps:
`matches` (match id → match record) and `rateLimit` (ip:path → list of request
timestamps).  Each HTTP handler runs synchronously to completion, so every
handler is embedded as a pure function from the relevant state (plus the
values of the `Date.now()` clock reads and of `crypto.randomUUID()`, which are
taken as explicit parameters) to a response and a new state.

JavaScript `Map` preserves insertion order and `Map.prototype.set` updates an
existing key in place, so both maps are embedded as ordered association lists
`List (String × α)` with `set`/`get`/`delete` operations reproducing that
behaviour.  Timestamps are integers (milliseconds); `Date.now()` values inside
one synchronous handler are modelled as a single instant.
-/

namespace DopaLAN

/-- JSON values as they arrive in a parsed request body (`express.json`).
JSON cannot carry `undefined` or `NaN`, so an absent body property is
modelled as `Option.none` at the use site and `NaN` only arises as the
result of `parseInt` (modelled as `Option.none : Option Int`).  Numbers are
restricted to integers, which covers every value the API stores or compares
(ports, timestamps, player counts). -/
inductive JsValue
  | vNull
  | vBool (b : Bool)
  | vNum (n : Int)
  | vStr (s : String)
deriving DecidableEq

/-- JavaScript truthiness of a `JsValue` (`null`, `false`, `0` and `""` are
falsy; every other modelled value is truthy). -/
def JsValue.truthy : JsValue → Bool
  | .vNull => false
  | .vBool b => b
  | .vNum n => decide (n ≠ 0)
  | .vStr s => decide (s ≠ "")

/-- Truthiness of a possibly-absent body property: an absent property reads
as `undefined`, which is falsy. -/
def jsTruthyOpt : Option JsValue → Bool
  | none => false
  | some v => v.truthy

/-- Template-literal string conversion of a `JsValue`, as in
`` `${proxyAddress}:${proxyPort}` `` at src/server.js:70 and :97. -/
def JsValue.render : JsValue → String
  | .vNull => "null"
  | .vBool b => cond b "true" "false"
  | .vNum n => toString n
  | .vStr s => s

/-- Template-literal conversion of a possibly-absent property
(`undefined` renders as the string "undefined"). -/
def renderOpt : Option JsValue → String
  | none => "undefined"
  | some v => v.render

def isHexDigitJs (c : Char) : Bool :=
  c.isDigit || ('a' ≤ c && c ≤ 'f') || ('A' ≤ c && c ≤ 'F')

def hexVal (c : Char) : Nat :=
  if c.isDigit then c.toNat - '0'.toNat
  else if 'a' ≤ c && c ≤ 'f' then c.toNat - 'a'.toNat + 10
  else c.toNat - 'A'.toNat + 10

def digitsVal (base : Nat) (cs : List Char) : Nat :=
  cs.foldl (fun a c => a * base + hexVal c) 0

/-- JavaScript `parseInt(string)` (radix argument absent, src/server.js:56):
skip leading whitespace, read an optional sign, treat a `0x`/`0X` prefix as
hexadecimal, consume the maximal run of digits and ignore any trailing
characters; yield `NaN` (here `none`) when no digit was consumed. -/
def parseIntString (s : String) : Option Int :=
  let cs := s.toList.dropWhile Char.isWhitespace
  let sgn : Int := match cs with
    | '-' :: _ => -1
    | _ => 1
  let cs₁ := match cs with
    | '-' :: r => r
    | '+' :: r => r
    | r => r
  let (base, cs₂) := match cs₁ with
    | '0' :: 'x' :: r => (16, r)
    | '0' :: 'X' :: r => (16, r)
    | r => (10, r)
  let digs := cs₂.takeWhile (fun c => if base = 16 then isHexDigitJs c else c.isDigit)
  if digs.isEmpty then none
  else some (sgn * (digitsVal base digs : Int))

/-- JavaScript `parseInt(v)` for a modelled JSON value: the argument is first
converted to a string (`String(null) = "null"`, `String(true) = "true"`,
integers print as their decimal digits) and then parsed as above. -/
def parseIntJs : JsValue → Option Int
  | .vStr s => parseIntString s
  | .vNum n => some n
  | .vBool _ => none
  | .vNull => none

/-- `parseInt(proxyPort)` where `proxyPort` may be absent
(`parseInt(undefined)` is `NaN`). -/
def parseIntOpt : Option JsValue → Option Int
  | none => none
  | some v => parseIntJs v

/-- Rendering of a stored port (an `Option Int`, where `none` is `NaN`) in a
template literal: `NaN` prints as "NaN". -/
def renderNum : Option Int → String
  | none => "NaN"
  | some n => toString n

/-- JavaScript `String.prototype.trim`: remove leading and trailing
whitespace.  (The JS whitespace class also contains exotic Unicode space
characters; inputs are modelled over the common ASCII whitespace.) -/
def trimJs (s : String) : String :=
  ⟨((s.toList.dropWhile Char.isWhitespace).reverse.dropWhile Char.isWhitespace).reverse⟩

/-- Result of evaluating `x?.trim()` on a body property and testing the
JavaScript truthiness of the result, as in the guard at src/server.js:45.
`undefined?.trim()` and `null?.trim()` short-circuit to `undefined` (falsy);
a string is trimmed and is falsy exactly when the trimmed string is empty;
on any other value, `.trim` is not a function and a `TypeError` is thrown. -/
inductive TrimResult
  | typeErr
  | falsy
  | ok (trimmed : String)
deriving DecidableEq

def jsOptTrim : Option JsValue → TrimResult
  | none => .falsy
  | some .vNull => .falsy
  | some (.vStr s) => if trimJs s = "" then .falsy else .ok (trimJs s)
  | some _ => .typeErr

/-- A stored match record (src/server.js:52-62). `proxyPort` is the result of
`parseInt` on the caller's input, hence possibly `NaN` (`none`);
`maxPlayers` is stored verbatim as supplied (or the default `8`). -/
structure Match where
  id : String
  hostName : String
  proxyAddress : String
  proxyPort : Option Int
  map : String
  maxPlayers : JsValue
  playersConnected : Int
  createdAt : Int
  lastHeartbeat : Int
deriving DecidableEq

/-- The `matches` map (src/server.js:15) as an insertion-ordered association
list. -/
abbrev Registry := List (String × Match)

/-- `Map.prototype.get`. -/
def mapGet {α : Type} (l : List (String × α)) (k : String) : Option α :=
  (l.find? (fun p => p.1 == k)).map Prod.snd

/-- `Map.prototype.has`. -/
def hasId {α : Type} (l : List (String × α)) (k : String) : Bool :=
  l.any (fun p => p.1 == k)

/-- In-place value replacement for an existing key (the update branch of
`Map.prototype.set`). -/
def overwrite {α : Type} (l : List (String × α)) (k : String) (v : α) :
    List (String × α) :=
  l.map (fun p => if p.1 == k then (k, v) else p)

/-- `Map.prototype.set`: update the entry in place when the key is present,
otherwise append a new entry at the end. -/
def mapSet {α : Type} (l : List (String × α)) (k : String) (v : α) :
    List (String × α) :=
  if hasId l k then overwrite l k v else l ++ [(k, v)]

/-- `Map.prototype.delete` (dropping the entry with the given key). -/
def mapDelete {α : Type} (l : List (String × α)) (k : String) :
    List (String × α) :=
  l.filter (fun p => !(p.1 == k))

/-- The request body of `POST /api/matches/register`; each property is
`none` when absent from the JSON body. -/
structure RegisterBody where
  hostName : Option JsValue
  proxyAddress : Option JsValue
  proxyPort : Option JsValue
  map : Option JsValue
  maxPlayers : Option JsValue
deriving DecidableEq

/-- Outcome of the register handler.  `validationError` is the 400 response
of src/server.js:46-48; `typeError` models the exception thrown when
`?.trim()` is applied to a non-string, non-nullish body value; `ok` carries
the response's `id` and `proxyUrl` fields (src/server.js:67-71; the human
readable `message` is omitted). -/
inductive RegisterOutcome
  | validationError
  | typeError
  | ok (id : String) (proxyUrl : String)
deriving DecidableEq

def RegisterOutcome.returnedId : RegisterOutcome → Option String
  | .ok i _ => some i
  | _ => none

/-- `POST /api/matches/register` (src/server.js:42-72).  `freshId` is the
value returned by `crypto.randomUUID()` and `now` the clock reading.  The
guard evaluates left to right with short-circuiting, as in the source. -/
def registerHandler (st : Registry) (freshId : String) (b : RegisterBody)
    (now : Int) : RegisterOutcome × Registry :=
  match jsOptTrim b.hostName with
  | .typeErr => (.typeError, st)
  | .falsy => (.validationError, st)
  | .ok hn =>
    match jsOptTrim b.proxyAddress with
    | .typeErr => (.typeError, st)
    | .falsy => (.validationError, st)
    | .ok pa =>
      if jsTruthyOpt b.proxyPort then
        match jsOptTrim b.map with
        | .typeErr => (.typeError, st)
        | .falsy => (.validationError, st)
        | .ok mp =>
          let m : Match :=
            { id := freshId, hostName := hn, proxyAddress := pa,
              proxyPort := parseIntOpt b.proxyPort, map := mp,
              maxPlayers := b.maxPlayers.getD (.vNum 8),
              playersConnected := 0, createdAt := now, lastHeartbeat := now }
          (.ok freshId (renderOpt b.proxyAddress ++ ":" ++ renderOpt b.proxyPort),
            mapSet st freshId m)
      else (.validationError, st)

def isOkTrim : TrimResult → Bool
  | .ok _ => true
  | _ => false

def trimOk : TrimResult → String
  | .ok s => s
  | _ => ""

/-- The validation guard of the register handler in isolation: `true` iff
the handler takes its success path (all three text fields pass the
`?.trim()` truthiness test and `proxyPort` is truthy). -/
def validationOk (b : RegisterBody) : Bool :=
  isOkTrim (jsOptTrim b.hostName) && isOkTrim (jsOptTrim b.proxyAddress) &&
    jsTruthyOpt b.proxyPort && isOkTrim (jsOptTrim b.map)

/-- The record stored by a successful registration (src/server.js:52-62) as
a function of the generated id, the body and the clock reading. -/
def storedMatch (u : String) (b : RegisterBody) (now : Int) : Match :=
  { id := u,
    hostName := trimOk (jsOptTrim b.hostName),
    proxyAddress := trimOk (jsOptTrim b.proxyAddress),
    proxyPort := parseIntOpt b.proxyPort,
    map := trimOk (jsOptTrim b.map),
    maxPlayers := b.maxPlayers.getD (.vNum 8),
    playersConnected := 0, createdAt := now, lastHeartbeat := now }

inductive HeartbeatOutcome
  | ok
  | notFound
deriving DecidableEq

/-- The in-place mutation `match.lastHeartbeat = Date.now()` of
src/server.js:83, seen at the level of the whole map. -/
def touch (id : String) (now : Int) (st : Registry) : Registry :=
  st.map (fun p =>
    if p.1 == id then (p.1, { p.2 with lastHeartbeat := now }) else p)

/-- `POST /api/matches/heartbeat` (src/server.js:75-85): look up the id; 404
when absent, otherwise set that record's `lastHeartbeat` to `now` in place. -/
def heartbeatHandler (st : Registry) (id : String) (now : Int) :
    HeartbeatOutcome × Registry :=
  match mapGet st id with
  | none => (.notFound, st)
  | some _ => (.ok, touch id now st)

inductive UnregisterOutcome
  | ok
  | notFound
deriving DecidableEq

/-- `POST /api/matches/unregister` (src/server.js:115-125): `matches.delete`
reports whether the key was present; 404 when it was not. -/
def unregisterHandler (st : Registry) (id : String) :
    UnregisterOutcome × Registry :=
  if hasId st id then (.ok, mapDelete st id) else (.notFound, st)

/-- The projection built at src/server.js:92-103.  Note there is no
`lastHeartbeat` field: the projection drops it. -/
structure MatchView where
  id : String
  hostName : String
  proxyAddress : String
  proxyPort : Option Int
  proxyUrl : String
  map : String
  maxPlayers : JsValue
  playersConnected : Int
  age : Int
  isRecent : Bool
deriving DecidableEq

def matchView (now : Int) (m : Match) : MatchView :=
  { id := m.id, hostName := m.hostName, proxyAddress := m.proxyAddress,
    proxyPort := m.proxyPort,
    proxyUrl := m.proxyAddress ++ ":" ++ renderNum m.proxyPort,
    map := m.map, maxPlayers := m.maxPlayers,
    playersConnected := m.playersConnected,
    age := (now - m.createdAt).fdiv 60000,
    isRecent := decide (now - m.lastHeartbeat < 30000) }

/-- The `.sort((a, b) => b.lastHeartbeat - a.lastHeartbeat)` step at
src/server.js:104.  It runs *after* the `.map` projection, and the projected
objects (`MatchView`) carry no `lastHeartbeat` property, so in JavaScript the
comparator computes `undefined - undefined = NaN` for every pair.  Per the
ECMAScript `SortCompare` algorithm a `NaN` comparator result is coerced to
`+0`, i.e. every pair compares equal, and `Array.prototype.sort` is stable,
so the sort returns the array in its existing order.  The step is therefore
the identity. -/
def sortByMissingLastHeartbeat (l : List MatchView) : List MatchView := l

/-- The response of the list endpoint; `matchesList` embeds the JSON key
`matches` (`matches` is a reserved word in Lean). -/
structure ListResponse where
  matchesList : List MatchView
  total : Nat
  timestamp : Int
deriving DecidableEq

/-- `GET /api/matches/list` (src/server.js:88-112): read the clock once,
filter to matches whose last heartbeat is younger than 120 000 ms, project,
sort (see `sortByMissingLastHeartbeat`), truncate to 100 and return the
views together with their count and the clock reading.  A pure read: the
registry is not touched. -/
def listHandler (st : Registry) (now : Int) : ListResponse :=
  let active := (st.map Prod.snd).filter
    (fun m => decide (now - m.lastHeartbeat < 120000))
  let views :=
    (sortByMissingLastHeartbeat (active.map (matchView now))).take 100
  { matchesList := views, total := views.length, timestamp := now }

/-- Count of matches whose last heartbeat is younger than 120 000 ms, as
computed by both `GET /health` (src/server.js:133-135) and `GET /stats`
(src/server.js:144-146). -/
def activeCount (st : Registry) (now : Int) : Nat :=
  ((st.map Prod.snd).filter (fun m => decide (now - m.lastHeartbeat < 120000))).length

/-- `GET /stats` (src/server.js:140-149), registry-derived fields (the
process uptime is not registry state and is omitted). -/
structure StatsResponse where
  totalMatchesEver : Nat
  activeMatches : Nat
deriving DecidableEq

def statsHandler (st : Registry) (now : Int) : StatsResponse :=
  { totalMatchesEver := st.length, activeMatches := activeCount st now }

/-- `GET /health` (src/server.js:128-137), registry-derived fields.  The
source calls `Date.now()` inside the filter, but the handler runs
synchronously so all reads are modelled as the single instant `now`. -/
structure HealthResponse where
  matchesCount : Nat
  active : Nat
deriving DecidableEq

def healthHandler (st : Registry) (now : Int) : HealthResponse :=
  { matchesCount := st.length, active := activeCount st now }

/-- One step of the rate-limiting middleware (src/server.js:19-39) for a
fixed `ip:path` key: push the current timestamp onto the key's history,
keep only the timestamps younger than 60 000 ms, store that pruned list
back, and deny (HTTP 429) exactly when it holds more than 15 entries. -/
def rateLimitStep (hist : List Int) (now : Int) : List Int × Bool :=
  let recent := (hist ++ [now]).filter (fun t => decide (now - t < 60000))
  (recent, decide (recent.length > 15))

/-- The full middleware over the `rateLimit` map: derive the key
`` `${ip}:${req.path}` ``, defaulting a missing history to `[]`. -/
def rateLimitMW (rl : List (String × List Int)) (ip path : String)
    (now : Int) : List (String × List Int) × Bool :=
  let key := ip ++ ":" ++ path
  let (recent, denied) := rateLimitStep ((mapGet rl key).getD []) now
  (mapSet rl key recent, denied)

/-- Run the per-key limiter over a sequence of request times, returning the
final stored history and the per-request denial flags. -/
def limiterRun (hist : List Int) : List Int → List Int × List Bool
  | [] => (hist, [])
  | t :: ts =>
    let step := rateLimitStep hist t
    let rest := limiterRun step.1 ts
    (rest.1, step.2 :: rest.2)

/-- The denial flags produced by `limiterRun` when nothing is ever pruned:
the k-th request (counting from a history already holding `base` entries)
is denied iff `base + k` exceeds 15. -/
def decisionsFrom (base : Nat) : Nat → List Bool
  | 0 => []
  | n + 1 => decide (base + 1 > 15) :: decisionsFrom (base + 1) n

/-- Registry well-formedness: keys are distinct and every stored record's
`id` field equals its key.  This holds for every state reachable through
the handlers. -/
def WF (st : Registry) : Prop :=
  (st.map Prod.fst).Nodup ∧ ∀ p ∈ st, p.2.id = p.1

instance : DecidablePred WF := fun st => by
  unfold WF; infer_instance

/-- The operations that can touch the registry after a given point, with
their external inputs (generated uuid, request body, clock reading). -/
inductive Op
  | opRegister (freshId : String) (b : RegisterBody) (now : Int)
  | opHeartbeat (id : String) (now : Int)
  | opUnregister (id : String)
  | opList (now : Int)
  | opStats (now : Int)

/-- State transition of a single operation (list and stats are pure reads). -/
def step (st : Registry) : Op → Registry
  | .opRegister u b n => (registerHandler st u b n).2
  | .opHeartbeat i n => (heartbeatHandler st i n).2
  | .opUnregister i => (unregisterHandler st i).2
  | .opList _ => st
  | .opStats _ => st

def run (st : Registry) : List Op → Registry
  | [] => st
  | op :: ops => run (step st op) ops


/-! ### Association-list lemmas -/

@[simp]
theorem mapGet_nil {α : Type} (k : String) :
    mapGet ([] : List (String × α)) k = none := rfl

@[simp]
theorem mapGet_cons {α : Type} (k' : String) (v : α) (l : List (String × α)) (k : String) :
    mapGet ((k', v) :: l) k = if k' = k then some v else mapGet l k := by
  by_cases h : k' = k <;> simp [mapGet, List.find?_cons, h]

@[simp]
theorem hasId_nil {α : Type} (k : String) :
    hasId ([] : List (String × α)) k = false := rfl

@[simp]
theorem hasId_cons {α : Type} (k' : String) (v : α) (l : List (String × α)) (k : String) :
    hasId ((k', v) :: l) k = (k' == k || hasId l k) := by
  simp [hasId]

theorem hasId_false_iff_mapGet_none {α : Type} (l : List (String × α)) (k : String) :
    hasId l k = false ↔ mapGet l k = none := by
  induction l with
  | nil => simp
  | cons p l ih =>
    obtain ⟨k', v⟩ := p
    by_cases h : k' = k <;> simp [h, ih]

theorem hasId_eq_any_keys {α : Type} (l : List (String × α)) (k : String) :
    hasId l k = (l.map Prod.fst).any (fun a => a == k) := by
  induction l with
  | nil => rfl
  | cons p l ih => simp [hasId] at ih ⊢; rw [ih]

theorem mapGet_append {α : Type} (l l' : List (String × α)) (k : String) :
    mapGet (l ++ l') k = if hasId l k then mapGet l k else mapGet l' k := by
  induction l with
  | nil => simp
  | cons p l ih =>
    obtain ⟨k', v⟩ := p
    by_cases h : k' = k <;> simp [h, ih]

@[simp]
theorem keys_overwrite {α : Type} (l : List (String × α)) (k : String) (v : α) :
    (overwrite l k v).map Prod.fst = l.map Prod.fst := by
  induction l with
  | nil => rfl
  | cons p l ih =>
    obtain ⟨k₀, v₀⟩ := p
    by_cases h : k₀ = k
    · subst h
      simpa [overwrite] using ih
    · simpa [overwrite, h] using ih

@[simp]
theorem hasId_overwrite {α : Type} (l : List (String × α)) (k : String) (v : α)
    (k' : String) : hasId (overwrite l k v) k' = hasId l k' := by
  rw [hasId_eq_any_keys, hasId_eq_any_keys, keys_overwrite]

theorem mapGet_overwrite_self {α : Type} (l : List (String × α)) (k : String) (v : α)
    (h : hasId l k = true) : mapGet (overwrite l k v) k = some v := by
  induction l with
  | nil => cases h
  | cons p l ih =>
    obtain ⟨k₀, v₀⟩ := p
    by_cases hk : k₀ = k
    · subst hk
      simp [overwrite]
    · have h' : hasId l k = true := by simpa [hk] using h
      simpa [overwrite, hk] using ih h'

theorem mapGet_overwrite_ne {α : Type} (l : List (String × α)) (k k' : String) (v : α)
    (h : k' ≠ k) : mapGet (overwrite l k v) k' = mapGet l k' := by
  induction l with
  | nil => rfl
  | cons p l ih =>
    obtain ⟨k₀, v₀⟩ := p
    by_cases hk : k₀ = k
    · subst hk
      simpa [overwrite, Ne.symm h] using ih
    · by_cases hk' : k₀ = k'
      · subst hk'
        simp [overwrite, hk]
      · simpa [overwrite, hk, hk'] using ih

theorem mapGet_mapSet_self {α : Type} (l : List (String × α)) (k : String) (v : α) :
    mapGet (mapSet l k v) k = some v := by
  unfold mapSet
  by_cases h : hasId l k = true
  · rw [if_pos h]
    exact mapGet_overwrite_self l k v h
  · have h' : hasId l k = false := by simpa using h
    rw [if_neg h, mapGet_append, if_neg h]
    simp

theorem mapGet_mapSet_ne {α : Type} (l : List (String × α)) (k k' : String) (v : α)
    (h : k' ≠ k) : mapGet (mapSet l k v) k' = mapGet l k' := by
  unfold mapSet
  by_cases hh : hasId l k = true
  · rw [if_pos hh]
    exact mapGet_overwrite_ne l k k' v h
  · rw [if_neg hh, mapGet_append]
    by_cases hk' : hasId l k' = true
    · rw [if_pos hk']
    · have hn : mapGet l k' = none :=
        (hasId_false_iff_mapGet_none l k').mp (by simpa using hk')
      rw [if_neg hk', hn]
      simp [Ne.symm h]

theorem hasId_mapSet {α : Type} (l : List (String × α)) (k k' : String) (v : α) :
    hasId (mapSet l k v) k' = (hasId l k' || k == k') := by
  unfold mapSet
  by_cases hh : hasId l k = true
  · rw [if_pos hh, hasId_overwrite]
    by_cases hk : k = k'
    · subst hk
      simp [hh]
    · simp [hk]
  · rw [if_neg hh]
    simp [hasId, List.any_append]

theorem length_mapSet_fresh {α : Type} (l : List (String × α)) (k : String) (v : α)
    (h : hasId l k = false) : (mapSet l k v).length = l.length + 1 := by
  unfold mapSet
  simp [h]

theorem mapSet_fresh_eq_append {α : Type} (l : List (String × α)) (k : String) (v : α)
    (h : hasId l k = false) : mapSet l k v = l ++ [(k, v)] := by
  unfold mapSet
  simp [h]

@[simp]
theorem mapDelete_nil {α : Type} (k : String) :
    mapDelete ([] : List (String × α)) k = [] := rfl

theorem mapDelete_cons {α : Type} (k₀ : String) (v : α) (l : List (String × α))
    (k : String) :
    mapDelete ((k₀, v) :: l) k =
      if k₀ = k then mapDelete l k else (k₀, v) :: mapDelete l k := by
  by_cases h : k₀ = k <;> simp [mapDelete, List.filter_cons, h]

@[simp]
theorem mapGet_mapDelete_self {α : Type} (l : List (String × α)) (k : String) :
    mapGet (mapDelete l k) k = none := by
  induction l with
  | nil => rfl
  | cons p l ih =>
    obtain ⟨k₀, v⟩ := p
    rw [mapDelete_cons]
    by_cases h : k₀ = k
    · rw [if_pos h]
      exact ih
    · rw [if_neg h, mapGet_cons, if_neg h]
      exact ih

theorem mapGet_mapDelete_ne {α : Type} (l : List (String × α)) (k k' : String)
    (h : k' ≠ k) : mapGet (mapDelete l k) k' = mapGet l k' := by
  induction l with
  | nil => rfl
  | cons p l ih =>
    obtain ⟨k₀, v⟩ := p
    rw [mapDelete_cons]
    by_cases hk : k₀ = k
    · have hne : k₀ ≠ k' := by
        rw [hk]
        exact Ne.symm h
      rw [if_pos hk, mapGet_cons, if_neg hne]
      exact ih
    · rw [if_neg hk, mapGet_cons, mapGet_cons]
      by_cases hk' : k₀ = k'
      · rw [if_pos hk', if_pos hk']
      · rw [if_neg hk', if_neg hk']
        exact ih

@[simp]
theorem hasId_mapDelete_self {α : Type} (l : List (String × α)) (k : String) :
    hasId (mapDelete l k) k = false := by
  rw [hasId_false_iff_mapGet_none]
  simp

theorem hasId_mapDelete_le {α : Type} (l : List (String × α)) (k k' : String) :
    hasId (mapDelete l k) k' = true → hasId l k' = true := by
  intro h
  simp only [hasId, List.any_eq_true] at h ⊢
  obtain ⟨p, hp, hpk⟩ := h
  exact ⟨p, List.mem_of_mem_filter hp, hpk⟩

theorem hasId_true_iff {α : Type} (l : List (String × α)) (k : String) :
    hasId l k = true ↔ ∃ v, mapGet l k = some v := by
  rcases h : mapGet l k with _ | v
  · rw [← hasId_false_iff_mapGet_none] at h
    simp [h]
  · constructor
    · exact fun _ => ⟨v, rfl⟩
    · intro
      by_contra hc
      rw [Bool.not_eq_true, hasId_false_iff_mapGet_none] at hc
      rw [hc] at h
      cases h

theorem mapGet_of_mem_nodup {α : Type} (l : List (String × α)) (k : String) (v : α)
    (hnd : (l.map Prod.fst).Nodup) (hmem : (k, v) ∈ l) : mapGet l k = some v := by
  induction l with
  | nil => cases hmem
  | cons p l ih =>
    obtain ⟨k₀, v₀⟩ := p
    simp only [List.map_cons, List.nodup_cons] at hnd
    rcases List.mem_cons.mp hmem with heq | h
    · cases heq
      simp
    · have hk : k₀ ≠ k := by
        rintro rfl
        exact hnd.1 (List.mem_map.mpr ⟨(k₀, v), h, rfl⟩)
      rw [mapGet_cons, if_neg hk]
      exact ih hnd.2 h

/-! ### `touch` (heartbeat update) lemmas -/

@[simp]
theorem keys_touch (id : String) (now : Int) (st : Registry) :
    (touch id now st).map Prod.fst = st.map Prod.fst := by
  induction st with
  | nil => rfl
  | cons p l ih =>
    obtain ⟨k₀, m⟩ := p
    by_cases h : k₀ = id
    · subst h
      simpa [touch] using ih
    · simpa [touch, h] using ih

@[simp]
theorem hasId_touch (id : String) (now : Int) (st : Registry) (k : String) :
    hasId (touch id now st) k = hasId st k := by
  rw [hasId_eq_any_keys, hasId_eq_any_keys, keys_touch]

theorem mapGet_touch_self (id : String) (now : Int) (st : Registry) :
    mapGet (touch id now st) id =
      (mapGet st id).map (fun m => { m with lastHeartbeat := now }) := by
  induction st with
  | nil => rfl
  | cons p l ih =>
    obtain ⟨k₀, m⟩ := p
    by_cases h : k₀ = id
    · subst h
      simp [touch]
    · simpa [touch, h] using ih

theorem mapGet_touch_ne (id : String) (now : Int) (st : Registry) (k : String)
    (h : k ≠ id) : mapGet (touch id now st) k = mapGet st k := by
  induction st with
  | nil => rfl
  | cons p l ih =>
    obtain ⟨k₀, m⟩ := p
    by_cases h₀ : k₀ = id
    · subst h₀
      simpa [touch, Ne.symm h] using ih
    · by_cases hk : k₀ = k
      · subst hk
        simp [touch, h₀]
      · simpa [touch, h₀, hk] using ih


/-! ### Register handler lemmas -/

theorem isOkTrim_ok {r : TrimResult} (h : isOkTrim r = true) :
    ∃ s, r = TrimResult.ok s := by
  cases r with
  | typeErr => cases h
  | falsy => cases h
  | ok s => exact ⟨s, rfl⟩

theorem register_ok_spec (st : Registry) (u : String) (b : RegisterBody) (now : Int)
    (h : validationOk b = true) :
    registerHandler st u b now =
      (.ok u (renderOpt b.proxyAddress ++ ":" ++ renderOpt b.proxyPort),
        mapSet st u (storedMatch u b now)) := by
  unfold validationOk at h
  simp only [Bool.and_eq_true] at h
  obtain ⟨⟨⟨hh, ha⟩, hp⟩, hm⟩ := h
  obtain ⟨hn, e1⟩ := isOkTrim_ok hh
  obtain ⟨pa, e2⟩ := isOkTrim_ok ha
  obtain ⟨mp, e3⟩ := isOkTrim_ok hm
  simp [registerHandler, storedMatch, trimOk, e1, e2, e3, hp]

theorem register_fail_state (st : Registry) (u : String) (b : RegisterBody) (now : Int)
    (h : validationOk b = false) : (registerHandler st u b now).2 = st := by
  unfold validationOk at h
  rcases e1 : jsOptTrim b.hostName with _ | _ | hn <;>
  rcases e2 : jsOptTrim b.proxyAddress with _ | _ | pa <;>
  rcases e4 : jsTruthyOpt b.proxyPort <;>
  rcases e3 : jsOptTrim b.map with _ | _ | mp <;>
  rw [e1, e2, e3, e4] at h <;>
  simp [isOkTrim] at h <;>
  simp [registerHandler, e1, e2, e3, e4]

theorem hasId_register (st : Registry) (u : String) (b : RegisterBody) (now : Int)
    (k : String) :
    hasId (registerHandler st u b now).2 k =
      (hasId st k || (validationOk b && u == k)) := by
  by_cases h : validationOk b = true
  · rw [register_ok_spec st u b now h, h]
    simp [hasId_mapSet]
  · have h' : validationOk b = false := by simpa using h
    rw [register_fail_state st u b now h', h']
    simp

/-! ### Heartbeat / unregister handler lemmas -/

theorem heartbeat_not_found (st : Registry) (id : String) (now : Int)
    (h : mapGet st id = none) : heartbeatHandler st id now = (.notFound, st) := by
  unfold heartbeatHandler
  rw [h]

theorem heartbeat_found (st : Registry) (id : String) (now : Int) (m : Match)
    (h : mapGet st id = some m) :
    heartbeatHandler st id now = (.ok, touch id now st) := by
  unfold heartbeatHandler
  rw [h]

theorem unregister_found (st : Registry) (id : String) (h : hasId st id = true) :
    unregisterHandler st id = (.ok, mapDelete st id) := by
  unfold unregisterHandler
  rw [if_pos h]

theorem unregister_not_found (st : Registry) (id : String) (h : hasId st id = false) :
    unregisterHandler st id = (.notFound, st) := by
  unfold unregisterHandler
  rw [if_neg (by simp [h])]

/-! ### Well-formedness and its preservation -/

theorem hasId_eq_keys_mem {α : Type} (l : List (String × α)) (k : String) :
    hasId l k = true ↔ k ∈ l.map Prod.fst := by
  rw [hasId_eq_any_keys, List.any_eq_true]
  constructor
  · rintro ⟨a, ha, he⟩
    rw [beq_iff_eq] at he
    exact he ▸ ha
  · intro h
    exact ⟨k, h, beq_self_eq_true k⟩

theorem WF_mapSet (st : Registry) (u : String) (m : Match) (hm : m.id = u)
    (hwf : WF st) : WF (mapSet st u m) := by
  unfold mapSet
  by_cases h : hasId st u = true
  · rw [if_pos h]
    refine ⟨by rw [keys_overwrite]; exact hwf.1, ?_⟩
    intro p hp
    rcases List.mem_map.mp hp with ⟨q, hq, rfl⟩
    by_cases hk : q.1 == u <;> simp [hk]
    · exact hm
    · exact hwf.2 q hq
  · rw [if_neg h]
    constructor
    · rw [List.map_append]
      rw [List.nodup_append]
      refine ⟨hwf.1, List.nodup_singleton u, ?_⟩
      intro a ha hb
      simp at hb
      subst hb
      exact absurd ((hasId_eq_keys_mem st a).mpr ha) (by simp [h])
    · intro p hp
      rcases List.mem_append.mp hp with hp | hp
      · exact hwf.2 p hp
      · simp at hp
        subst hp
        exact hm

theorem WF_touch (id : String) (now : Int) (st : Registry) (hwf : WF st) :
    WF (touch id now st) := by
  refine ⟨by rw [keys_touch]; exact hwf.1, ?_⟩
  intro p hp
  rcases List.mem_map.mp hp with ⟨q, hq, rfl⟩
  by_cases hk : q.1 == id <;> simp [hk]
  · exact hwf.2 q hq
  · exact hwf.2 q hq

theorem WF_mapDelete (st : Registry) (k : String) (hwf : WF st) :
    WF (mapDelete st k) := by
  constructor
  · exact List.Nodup.sublist ((List.filter_sublist st).map Prod.fst) hwf.1
  · intro p hp
    exact hwf.2 p (List.mem_of_mem_filter hp)

theorem WF_step (st : Registry) (op : Op) (hwf : WF st) : WF (step st op) := by
  cases op with
  | opRegister u b n =>
    show WF (registerHandler st u b n).2
    by_cases h : validationOk b = true
    · rw [register_ok_spec st u b n h]
      exact WF_mapSet st u _ rfl hwf
    · rw [register_fail_state st u b n (by simpa using h)]
      exact hwf
  | opHeartbeat i n =>
    show WF (heartbeatHandler st i n).2
    rcases h : mapGet st i with _ | m
    · rw [heartbeat_not_found st i n h]
      exact hwf
    · rw [heartbeat_found st i n m h]
      exact WF_touch i n st hwf
  | opUnregister i =>
    show WF (unregisterHandler st i).2
    by_cases h : hasId st i = true
    · rw [unregister_found st i h]
      exact WF_mapDelete st i hwf
    · rw [unregister_not_found st i (by simpa using h)]
      exact hwf
  | opList n => exact hwf
  | opStats n => exact hwf

theorem hasId_step_false (st : Registry) (op : Op) (id : String)
    (h : hasId st id = false) (hop : ∀ b n, op ≠ Op.opRegister id b n) :
    hasId (step st op) id = false := by
  cases op with
  | opRegister u b n =>
    have hu : u ≠ id := fun he => hop b n (by rw [he])
    show hasId (registerHandler st u b n).2 id = false
    rw [hasId_register]
    simp [h, hu]
  | opHeartbeat i n =>
    show hasId (heartbeatHandler st i n).2 id = false
    rcases hm : mapGet st i with _ | m
    · rw [heartbeat_not_found st i n hm]
      exact h
    · rw [heartbeat_found st i n m hm]
      simp [h]
  | opUnregister i =>
    show hasId (unregisterHandler st i).2 id = false
    by_cases hh : hasId st i = true
    · rw [unregister_found st i hh]
      cases e : hasId (mapDelete st i) id
      · rfl
      · exact absurd (hasId_mapDelete_le st i id e) (by simp [h])
    · rw [unregister_not_found st i (by simpa using hh)]
      exact h
  | opList n => exact h
  | opStats n => exact h

theorem run_preserves_absent (ops : List Op) (st : Registry) (id : String)
    (hwf : WF st) (h : hasId st id = false)
    (hop : ∀ b n, Op.opRegister id b n ∉ ops) :
    WF (run st ops) ∧ hasId (run st ops) id = false := by
  induction ops generalizing st with
  | nil => exact ⟨hwf, h⟩
  | cons op ops ih =>
    have hop' : ∀ b n, Op.opRegister id b n ∉ ops := fun b n hmem =>
      hop b n (List.mem_cons_of_mem _ hmem)
    have hne : ∀ b n, op ≠ Op.opRegister id b n := fun b n he =>
      hop b n (he ▸ List.mem_cons_self _ _)
    exact ih (step st op) (WF_step st op hwf) (hasId_step_false st op id h hne) hop'

/-! ### List handler lemmas -/

theorem mem_listHandler (st : Registry) (now : Int) (v : MatchView)
    (hv : v ∈ (listHandler st now).matchesList) :
    ∃ p ∈ st, v = matchView now p.2 ∧ now - p.2.lastHeartbeat < 120000 := by
  simp only [listHandler, sortByMissingLastHeartbeat] at hv
  have hv' := List.take_subset _ _ hv
  rcases List.mem_map.mp hv' with ⟨m, hm, rfl⟩
  rcases List.mem_filter.mp hm with ⟨hm', hact⟩
  rcases List.mem_map.mp hm' with ⟨p, hp, rfl⟩
  exact ⟨p, hp, rfl, by simpa using hact⟩

theorem id_field_unique (st : Registry) (hwf : WF st) (id : String) (m : Match)
    (hm : mapGet st id = some m) :
    ∀ p ∈ st, p.2.id = id → p.2 = m := by
  intro p hp hpid
  obtain ⟨a, b⟩ := p
  have ha : a = id := (hwf.2 (a, b) hp).symm.trans hpid
  subst ha
  have := mapGet_of_mem_nodup st a b hwf.1 hp
  rw [hm] at this
  exact (Option.some.injEq ..).mp this.symm

theorem activeCount_mapDelete (st : Registry) (id : String) (now : Int)
    (h : ∀ p ∈ st, p.1 = id → ¬(now - p.2.lastHeartbeat < 120000)) :
    activeCount (mapDelete st id) now = activeCount st now := by
  induction st with
  | nil => rfl
  | cons p l ih =>
    obtain ⟨k, m⟩ := p
    have hl : ∀ q ∈ l, q.1 = id → ¬(now - q.2.lastHeartbeat < 120000) :=
      fun q hq => h q (List.mem_cons_of_mem _ hq)
    have ihh := ih hl
    by_cases hk : k = id
    · have hm := h (k, m) (List.mem_cons_self _ _) hk
      simp only [activeCount, mapDelete, List.filter_cons, List.map_cons] at ihh ⊢
      simp [hk, hm] at ihh ⊢
      exact ihh
    · by_cases hact : now - m.lastHeartbeat < 120000 <;>
        simp only [activeCount, mapDelete, List.filter_cons, List.map_cons] at ihh ⊢ <;>
        simp [hk, hact] at ihh ⊢ <;>
        exact ihh

/-! ### Rate limiter lemmas -/

theorem rateLimitStep_no_prune (hist : List Int) (t : Int)
    (h : ∀ a ∈ hist, t - a < 60000) :
    rateLimitStep hist t = (hist ++ [t], decide (hist.length + 1 > 15)) := by
  unfold rateLimitStep
  have hall : (hist ++ [t]).filter (fun a => decide (t - a < 60000)) = hist ++ [t] := by
    rw [List.filter_eq_self]
    intro a ha
    rcases List.mem_append.mp ha with ha | ha
    · simpa using h a ha
    · simp at ha
      subst ha
      simp
  rw [hall]
  simp

theorem limiterRun_no_prune (ts : List Int) (done : List Int)
    (h : ∀ a ∈ done ++ ts, ∀ b ∈ done ++ ts, b - a < 60000) :
    limiterRun done ts = (done ++ ts, decisionsFrom done.length ts.length) := by
  induction ts generalizing done with
  | nil => simp [limiterRun, decisionsFrom]
  | cons t ts ih =>
    have hkeep : ∀ a ∈ done, t - a < 60000 := by
      intro a ha
      exact h a (by simp [ha]) t (by simp)
    have h' : ∀ a ∈ (done ++ [t]) ++ ts, ∀ b ∈ (done ++ [t]) ++ ts, b - a < 60000 := by
      intro a ha b hb
      apply h <;> simp at ha hb ⊢ <;> tauto
    simp only [limiterRun]
    rw [rateLimitStep_no_prune done t hkeep, ih (done ++ [t]) h']
    simp [decisionsFrom, List.length_append]

theorem rateLimitStep_all_pruned (hist : List Int) (t : Int)
    (h : ∀ a ∈ hist, t - a ≥ 60000) :
    rateLimitStep hist t = ([t], false) := by
  have hnil : hist.filter (fun a => decide (t - a < 60000)) = [] := by
    rw [List.filter_eq_nil_iff]
    intro a ha
    have := h a ha
    simp only [decide_eq_true_eq]
    omega
  have hsingle : List.filter (fun a => decide (t - a < 60000)) [t] = [t] := by
    have ht : t - t < 60000 := by omega
    simp [List.filter_cons, ht]
  simp only [rateLimitStep]
  rw [List.filter_append, hnil, hsingle]
  simp


/-! ### Claim theorems -/

/-- C1: the spec claims List() is ordered by lastHeartbeat descending and
that a just-refreshed match sorts first.  The code sorts *after* the
projection has dropped `lastHeartbeat` (src/server.js:92-104), so the
comparator yields NaN for every pair and the stable sort leaves insertion
order.  Concretely: two matches registered at heartbeat time 0, then the
second one ("b") receives a heartbeat at 10000; at time 20000 the listing
still returns ["a", "b"] although "b" has the strictly more recent
lastHeartbeat, contradicting both the descending order and the
refreshed-match-first sentence (and the source's own comment
"Plus récents 1er"). -/
theorem c1_list_order_insertion_not_recency :
    let st0 : Registry :=
      [("a", ⟨"a", "h1", "x", some 1, "m", .vNum 8, 0, 0, 0⟩),
       ("b", ⟨"b", "h2", "y", some 2, "m", .vNum 8, 0, 0, 0⟩)]
    let st1 := (heartbeatHandler st0 "b" 10000).2
    (heartbeatHandler st0 "b" 10000).1 = .ok
    ∧ (mapGet st1 "a").map Match.lastHeartbeat = some 0
    ∧ (mapGet st1 "b").map Match.lastHeartbeat = some 10000
    ∧ (listHandler st1 20000).matchesList.map MatchView.id = ["a", "b"] := by
  decide

/-- C2 counterexample: proxyPort "not-a-number" is present and not coercible
to an integer (parseInt yields NaN), yet the register call succeeds, creates
a Match, and stores NaN as the proxyPort — the claim's ValidationError and
"stored proxyPort is an integer" clauses both fail. -/
theorem c2_counterexample :
    parseIntOpt (some (JsValue.vStr "not-a-number")) = none
    ∧ (registerHandler [] "u1"
        ⟨some (.vStr "host"), some (.vStr "10.0.0.5"),
          some (.vStr "not-a-number"), some (.vStr "dust"), none⟩ 0).1
        = .ok "u1" "10.0.0.5:not-a-number"
    ∧ (registerHandler [] "u1"
        ⟨some (.vStr "host"), some (.vStr "10.0.0.5"),
          some (.vStr "not-a-number"), some (.vStr "dust"), none⟩ 0).2.length = 1
    ∧ (mapGet (registerHandler [] "u1"
        ⟨some (.vStr "host"), some (.vStr "10.0.0.5"),
          some (.vStr "not-a-number"), some (.vStr "dust"), none⟩ 0).2 "u1").map
        Match.proxyPort = some none := by
  decide

/-- C2 (amended): the handler rejects proxyPort only when it is falsy
(absent, empty string, or the number 0); assuming hostName and proxyAddress
pass their trim checks, a falsy proxyPort yields ValidationError with the
registry unchanged, while any truthy proxyPort is accepted and the stored
proxyPort is parseInt of the caller's input — which is NaN (not an integer)
when the input has no leading digits. -/
theorem c2_amended (st : Registry) (u : String) (b : RegisterBody) (now : Int)
    (hh : isOkTrim (jsOptTrim b.hostName) = true)
    (ha : isOkTrim (jsOptTrim b.proxyAddress) = true) :
    (jsTruthyOpt b.proxyPort = false →
      registerHandler st u b now = (.validationError, st))
    ∧ (jsTruthyOpt b.proxyPort = true → isOkTrim (jsOptTrim b.map) = true →
      (registerHandler st u b now).1.returnedId = some u
      ∧ mapGet (registerHandler st u b now).2 u = some (storedMatch u b now)
      ∧ (storedMatch u b now).proxyPort = parseIntOpt b.proxyPort) := by
  obtain ⟨hn, e1⟩ := isOkTrim_ok hh
  obtain ⟨pa, e2⟩ := isOkTrim_ok ha
  constructor
  · intro hp
    simp [registerHandler, e1, e2, hp]
  · intro hp hm
    have hv : validationOk b = true := by
      simp [validationOk, hh, ha, hp, hm]
    rw [register_ok_spec st u b now hv]
    exact ⟨rfl, mapGet_mapSet_self st u (storedMatch u b now), rfl⟩

/-- C2 amended witness: with proxyPort the non-numeric string "abc" the
truthy branch of the amended theorem applies; a match is stored whose
proxyPort is parseInt("abc") = NaN. -/
theorem c2_amended_witness :
    (registerHandler [] "u1"
      ⟨some (.vStr "host"), some (.vStr "10.0.0.5"), some (.vStr "abc"),
        some (.vStr "dust"), none⟩ 5).1.returnedId = some "u1"
    ∧ mapGet (registerHandler [] "u1"
        ⟨some (.vStr "host"), some (.vStr "10.0.0.5"), some (.vStr "abc"),
          some (.vStr "dust"), none⟩ 5).2 "u1"
        = some (storedMatch "u1"
            ⟨some (.vStr "host"), some (.vStr "10.0.0.5"), some (.vStr "abc"),
              some (.vStr "dust"), none⟩ 5)
    ∧ (storedMatch "u1"
        ⟨some (.vStr "host"), some (.vStr "10.0.0.5"), some (.vStr "abc"),
          some (.vStr "dust"), none⟩ 5).proxyPort
        = parseIntOpt (some (.vStr "abc")) :=
  (c2_amended [] "u1"
      ⟨some (.vStr "host"), some (.vStr "10.0.0.5"), some (.vStr "abc"),
        some (.vStr "dust"), none⟩ 5 (by decide) (by decide)).2
    (by decide) (by decide)

/-- C3: one limiter call appends the current timestamp, prunes to the
trailing 60 000 ms window and denies iff more than 15 entries remain; for
any 16 call times that pairwise fit in one window, the first 15 calls are
admitted and the 16th is denied while its timestamp still occupies a slot;
and once all stored timestamps are at least 60 000 ms old, the next call is
admitted again. -/
theorem c3_rate_limiter (hist : List Int) (now : Int) (ts : List Int) (t' : Int)
    (hlen : ts.length = 16)
    (hwin : ∀ a ∈ ts, ∀ b ∈ ts, b - a < 60000)
    (hlate : ∀ a ∈ ts, t' - a ≥ 60000) :
    (rateLimitStep hist now).1 =
      (hist ++ [now]).filter (fun t => decide (now - t < 60000))
    ∧ ((rateLimitStep hist now).2 = true ↔
        ((hist ++ [now]).filter (fun t => decide (now - t < 60000))).length > 15)
    ∧ (limiterRun [] ts).2 = List.replicate 15 false ++ [true]
    ∧ (limiterRun [] ts).1 = ts
    ∧ (rateLimitStep (limiterRun [] ts).1 t').2 = false := by
  have hwin' : ∀ a ∈ ([] : List Int) ++ ts, ∀ b ∈ ([] : List Int) ++ ts,
      b - a < 60000 := by simpa using hwin
  have hrun := limiterRun_no_prune ts [] hwin'
  refine ⟨rfl, by simp [rateLimitStep], ?_, ?_, ?_⟩
  · rw [hrun]
    show decisionsFrom ([] : List Int).length ts.length = List.replicate 15 false ++ [true]
    rw [hlen]
    decide
  · rw [hrun]
    simp
  · rw [hrun]
    show (rateLimitStep ([] ++ ts) t').2 = false
    rw [List.nil_append, rateLimitStep_all_pruned ts t' hlate]

/-- C3 witness: sixteen calls at time 0 followed by one call at time 60000,
with an arbitrary single step at history [] and time 0. -/
theorem c3_rate_limiter_witness :
    (rateLimitStep [] 0).1 =
      (([] : List Int) ++ [0]).filter (fun t => decide (0 - t < 60000))
    ∧ ((rateLimitStep [] 0).2 = true ↔
        ((([] : List Int) ++ [0]).filter (fun t => decide (0 - t < 60000))).length > 15)
    ∧ (limiterRun [] (List.replicate 16 0)).2 = List.replicate 15 false ++ [true]
    ∧ (limiterRun [] (List.replicate 16 0)).1 = List.replicate 16 0
    ∧ (rateLimitStep (limiterRun [] (List.replicate 16 0)).1 60000).2 = false :=
  c3_rate_limiter [] 0 (List.replicate 16 0) 60000 (by decide) (by decide) (by decide)

/-- C5 counterexample: a proxyPort consisting of a single space is empty
after trimming whitespace, yet the register call is not rejected — the
guard tests only truthiness of the raw value — and a Match is created, so
the registry size changes. -/
theorem c5_counterexample :
    trimJs " " = ""
    ∧ (registerHandler [] "u1"
        ⟨some (.vStr "Alice"), some (.vStr "10.0.0.5"), some (.vStr " "),
          some (.vStr "dust"), none⟩ 0).1 ≠ .validationError
    ∧ (registerHandler [] "u1"
        ⟨some (.vStr "Alice"), some (.vStr "10.0.0.5"), some (.vStr " "),
          some (.vStr "dust"), none⟩ 0).2.length = 1 := by
  decide

theorem jsOptTrim_ne_typeErr (f : Option JsValue)
    (h : f = none ∨ f = some .vNull ∨ ∃ s, f = some (.vStr s)) :
    jsOptTrim f ≠ .typeErr := by
  rcases h with rfl | rfl | ⟨s, rfl⟩ <;> simp [jsOptTrim]
  split <;> simp

/-- C5 (amended): when hostName, proxyAddress and map are each absent, null
or a string (the shapes JSON text fields take), a register call in which one
of those three is absent or blank after trimming, or in which proxyPort is
absent or otherwise falsy (empty string, the number 0, null or false), is
rejected with ValidationError and leaves the registry unchanged.  A
whitespace-only proxyPort string is truthy and is not rejected (see the
counterexample). -/
theorem c5_amended (st : Registry) (u : String) (b : RegisterBody) (now : Int)
    (htext : ∀ f ∈ [b.hostName, b.proxyAddress, b.map],
        f = none ∨ f = some .vNull ∨ ∃ s, f = some (.vStr s))
    (hbad : jsOptTrim b.hostName = .falsy ∨ jsOptTrim b.proxyAddress = .falsy ∨
        jsTruthyOpt b.proxyPort = false ∨ jsOptTrim b.map = .falsy) :
    registerHandler st u b now = (.validationError, st) := by
  have hh := htext b.hostName (by simp)
  have ha := htext b.proxyAddress (by simp)
  have hm := htext b.map (by simp)
  rcases e1 : jsOptTrim b.hostName with _ | _ | hn
  · exact absurd e1 (jsOptTrim_ne_typeErr b.hostName hh)
  · simp [registerHandler, e1]
  · rcases e2 : jsOptTrim b.proxyAddress with _ | _ | pa
    · exact absurd e2 (jsOptTrim_ne_typeErr b.proxyAddress ha)
    · simp [registerHandler, e1, e2]
    · rcases e4 : jsTruthyOpt b.proxyPort
      · simp [registerHandler, e1, e2, e4]
      · rcases e3 : jsOptTrim b.map with _ | _ | mp
        · exact absurd e3 (jsOptTrim_ne_typeErr b.map hm)
        · simp [registerHandler, e1, e2, e3, e4]
        · rcases hbad with hb | hb | hb | hb
          · rw [hb] at e1
            cases e1
          · rw [hb] at e2
            cases e2
          · rw [hb] at e4
            cases e4
          · rw [hb] at e3
            cases e3

/-- C5 amended witness: a whitespace-only map with the other fields valid is
rejected and the registry is unchanged. -/
theorem c5_amended_witness :
    registerHandler [] "u1"
        ⟨some (.vStr "Alice"), some (.vStr "10.0.0.5"), some (.vNum 7),
          some (.vStr "   "), none⟩ 3
      = (.validationError, []) :=
  c5_amended [] "u1"
    ⟨some (.vStr "Alice"), some (.vStr "10.0.0.5"), some (.vNum 7),
      some (.vStr "   "), none⟩ 3
    (by
      intro f hf
      simp only [List.mem_cons, List.not_mem_nil, or_false] at hf
      rcases hf with rfl | rfl | rfl
      · exact Or.inr (Or.inr ⟨"Alice", rfl⟩)
      · exact Or.inr (Or.inr ⟨"10.0.0.5", rfl⟩)
      · exact Or.inr (Or.inr ⟨"   ", rfl⟩))
    (by decide)


/-- C4: a match whose lastHeartbeat is at least 120 000 ms old at time `now`
contributes no entry to the List() views, removing it does not change the
active count reported by Stats() and health, it is still stored (hasId), and
Unregister on it still succeeds — stale matches are never purged. -/
theorem c4_stale_excluded (st : Registry) (id : String) (m : Match) (now : Int)
    (hwf : WF st) (hm : mapGet st id = some m)
    (hstale : now - m.lastHeartbeat ≥ 120000) :
    (∀ v ∈ (listHandler st now).matchesList, v.id ≠ id)
    ∧ (statsHandler st now).activeMatches = activeCount (mapDelete st id) now
    ∧ (healthHandler st now).active = activeCount (mapDelete st id) now
    ∧ hasId st id = true
    ∧ unregisterHandler st id = (.ok, mapDelete st id) := by
  have hactive : ¬(now - m.lastHeartbeat < 120000) := by omega
  have hprem : ∀ p ∈ st, p.1 = id → ¬(now - p.2.lastHeartbeat < 120000) := by
    intro p hp hpid
    have hid : p.2.id = id := (hwf.2 p hp).trans hpid
    rw [id_field_unique st hwf id m hm p hp hid]
    exact hactive
  have hhas : hasId st id = true := (hasId_true_iff st id).mpr ⟨m, hm⟩
  refine ⟨?_, ?_, ?_, hhas, unregister_found st id hhas⟩
  · intro v hv hvid
    obtain ⟨p, hp, hveq, hact⟩ := mem_listHandler st now v hv
    rw [hveq] at hvid
    have hvid' : p.2.id = id := hvid
    rw [id_field_unique st hwf id m hm p hp hvid'] at hact
    exact hactive hact
  · exact (activeCount_mapDelete st id now hprem).symm
  · exact (activeCount_mapDelete st id now hprem).symm

/-- C4 witness: a single match whose last heartbeat is exactly 120 000 ms
old is stale, still stored, invisible to the active count, and
unregisterable. -/
theorem c4_witness :
    (statsHandler [("a", (⟨"a", "h", "x", some 1, "m", .vNum 8, 0, 0, 0⟩ : Match))] 120000).activeMatches
      = activeCount (mapDelete [("a", (⟨"a", "h", "x", some 1, "m", .vNum 8, 0, 0, 0⟩ : Match))] "a") 120000
    ∧ (healthHandler [("a", (⟨"a", "h", "x", some 1, "m", .vNum 8, 0, 0, 0⟩ : Match))] 120000).active
      = activeCount (mapDelete [("a", (⟨"a", "h", "x", some 1, "m", .vNum 8, 0, 0, 0⟩ : Match))] "a") 120000
    ∧ hasId [("a", (⟨"a", "h", "x", some 1, "m", .vNum 8, 0, 0, 0⟩ : Match))] "a" = true
    ∧ unregisterHandler [("a", (⟨"a", "h", "x", some 1, "m", .vNum 8, 0, 0, 0⟩ : Match))] "a"
        = (.ok, mapDelete [("a", (⟨"a", "h", "x", some 1, "m", .vNum 8, 0, 0, 0⟩ : Match))] "a") := by
  have h := c4_stale_excluded
    [("a", (⟨"a", "h", "x", some 1, "m", .vNum 8, 0, 0, 0⟩ : Match))] "a"
    (⟨"a", "h", "x", some 1, "m", .vNum 8, 0, 0, 0⟩ : Match) 120000
    (by decide) (by decide) (by decide)
  exact ⟨h.2.1, h.2.2.1, h.2.2.2.1, h.2.2.2.2⟩

/-- C6: Heartbeat(id) fails with NotFoundError exactly when the id is
absent, in which case the registry is untouched; on success it returns ok,
the targeted record differs only in lastHeartbeat (set to now), and every
other key maps to exactly what it mapped to before. -/
theorem c6_heartbeat_frame (st : Registry) (id : String) (now : Int) :
    ((heartbeatHandler st id now).1 = .notFound ↔ mapGet st id = none)
    ∧ (mapGet st id = none → heartbeatHandler st id now = (.notFound, st))
    ∧ (∀ m, mapGet st id = some m →
        (heartbeatHandler st id now).1 = .ok
        ∧ mapGet (heartbeatHandler st id now).2 id = some { m with lastHeartbeat := now }
        ∧ (∀ k, k ≠ id → mapGet (heartbeatHandler st id now).2 k = mapGet st k)) := by
  rcases h : mapGet st id with _ | m
  · rw [heartbeat_not_found st id now h]
    refine ⟨by simp, fun _ => rfl, ?_⟩
    intro m hm
    cases hm
  · rw [heartbeat_found st id now m h]
    refine ⟨by simp, ?_, ?_⟩
    · intro hn
      cases hn
    · intro m' hm'
      cases hm'
      refine ⟨rfl, ?_, ?_⟩
      · show mapGet (touch id now st) id = some { m with lastHeartbeat := now }
        rw [mapGet_touch_self, h]
        rfl
      · intro k hk
        show mapGet (touch id now st) k = mapGet st k
        exact mapGet_touch_ne id now st k hk

/-- C6 witness: heartbeat at time 99 on a registry holding one match "a"
succeeds, bumps only lastHeartbeat, and leaves the lookup of "b"
unchanged. -/
theorem c6_witness :
    (heartbeatHandler [("a", (⟨"a", "h", "x", some 1, "m", .vNum 8, 0, 0, 0⟩ : Match))] "a" 99).1 = .ok
    ∧ mapGet (heartbeatHandler [("a", (⟨"a", "h", "x", some 1, "m", .vNum 8, 0, 0, 0⟩ : Match))] "a" 99).2 "a"
        = some { (⟨"a", "h", "x", some 1, "m", .vNum 8, 0, 0, 0⟩ : Match) with lastHeartbeat := 99 }
    ∧ mapGet (heartbeatHandler [("a", (⟨"a", "h", "x", some 1, "m", .vNum 8, 0, 0, 0⟩ : Match))] "a" 99).2 "b"
        = mapGet [("a", (⟨"a", "h", "x", some 1, "m", .vNum 8, 0, 0, 0⟩ : Match))] "b" := by
  have h := (c6_heartbeat_frame
    [("a", (⟨"a", "h", "x", some 1, "m", .vNum 8, 0, 0, 0⟩ : Match))] "a" 99).2.2
    (⟨"a", "h", "x", some 1, "m", .vNum 8, 0, 0, 0⟩ : Match) (by decide)
  exact ⟨h.1, h.2.1, h.2.2 "b" (by decide)⟩

/-- C7: registering twice with fresh generated ids (the contract of
crypto.randomUUID, supplied here as the hypotheses that each generated id is
absent from the registry it is inserted into) yields distinct ids, each call
returns its id, the stored records have playersConnected 0 and
createdAt = lastHeartbeat = the call's clock reading, maxPlayers defaults to
8 when absent, and in the resulting registry each id is independently
heartbeat-able and unregisterable (also after the other has been removed). -/
theorem c7_register_twice (st : Registry) (b1 b2 : RegisterBody) (u1 u2 : String)
    (n1 n2 n3 : Int)
    (hv1 : validationOk b1 = true) (hv2 : validationOk b2 = true)
    (hf1 : hasId st u1 = false)
    (hf2 : hasId (registerHandler st u1 b1 n1).2 u2 = false) :
    u1 ≠ u2
    ∧ (registerHandler st u1 b1 n1).1.returnedId = some u1
    ∧ (registerHandler (registerHandler st u1 b1 n1).2 u2 b2 n2).1.returnedId = some u2
    ∧ (registerHandler st u1 b1 n1).2.length = st.length + 1
    ∧ (storedMatch u1 b1 n1).playersConnected = 0
    ∧ (storedMatch u1 b1 n1).createdAt = n1
    ∧ (storedMatch u1 b1 n1).lastHeartbeat = n1
    ∧ (b1.maxPlayers = none → (storedMatch u1 b1 n1).maxPlayers = .vNum 8)
    ∧ (∀ st2, st2 = (registerHandler (registerHandler st u1 b1 n1).2 u2 b2 n2).2 →
        mapGet st2 u1 = some (storedMatch u1 b1 n1)
        ∧ mapGet st2 u2 = some (storedMatch u2 b2 n2)
        ∧ (heartbeatHandler st2 u1 n3).1 = .ok
        ∧ (heartbeatHandler st2 u2 n3).1 = .ok
        ∧ (unregisterHandler st2 u1).1 = .ok
        ∧ (unregisterHandler st2 u2).1 = .ok
        ∧ (heartbeatHandler (unregisterHandler st2 u1).2 u2 n3).1 = .ok
        ∧ (unregisterHandler (unregisterHandler st2 u1).2 u2).1 = .ok) := by
  have e1 := register_ok_spec st u1 b1 n1 hv1
  have hst1 : (registerHandler st u1 b1 n1).2 = mapSet st u1 (storedMatch u1 b1 n1) := by
    rw [e1]
  have hget1 : mapGet (registerHandler st u1 b1 n1).2 u1 = some (storedMatch u1 b1 n1) := by
    rw [hst1]
    exact mapGet_mapSet_self st u1 (storedMatch u1 b1 n1)
  have hhas1 : hasId (registerHandler st u1 b1 n1).2 u1 = true :=
    (hasId_true_iff _ u1).mpr ⟨_, hget1⟩
  have hne : u1 ≠ u2 := by
    intro he
    subst he
    rw [hhas1] at hf2
    cases hf2
  have e2 := register_ok_spec (registerHandler st u1 b1 n1).2 u2 b2 n2 hv2
  have hst2 : (registerHandler (registerHandler st u1 b1 n1).2 u2 b2 n2).2
      = mapSet (registerHandler st u1 b1 n1).2 u2 (storedMatch u2 b2 n2) := by
    rw [e2]
  refine ⟨hne, by rw [e1]; rfl, by rw [e2]; rfl,
    by rw [hst1]; exact length_mapSet_fresh st u1 _ hf1, rfl, rfl, rfl, ?_, ?_⟩
  · intro h
    simp [storedMatch, h]
  · intro st2 hdef
    have hg1 : mapGet st2 u1 = some (storedMatch u1 b1 n1) := by
      rw [hdef, hst2, mapGet_mapSet_ne _ u2 u1 _ hne, hget1]
    have hg2 : mapGet st2 u2 = some (storedMatch u2 b2 n2) := by
      rw [hdef, hst2]
      exact mapGet_mapSet_self _ u2 (storedMatch u2 b2 n2)
    have hu1 : hasId st2 u1 = true := (hasId_true_iff st2 u1).mpr ⟨_, hg1⟩
    have hu2 : hasId st2 u2 = true := (hasId_true_iff st2 u2).mpr ⟨_, hg2⟩
    have hdel : (unregisterHandler st2 u1).2 = mapDelete st2 u1 := by
      rw [unregister_found st2 u1 hu1]
    have hg2d : mapGet (unregisterHandler st2 u1).2 u2 = some (storedMatch u2 b2 n2) := by
      rw [hdel, mapGet_mapDelete_ne st2 u1 u2 (Ne.symm hne), hg2]
    refine ⟨hg1, hg2, ?_, ?_, ?_, ?_, ?_, ?_⟩
    · rw [heartbeat_found st2 u1 n3 _ hg1]
    · rw [heartbeat_found st2 u2 n3 _ hg2]
    · rw [unregister_found st2 u1 hu1]
    · rw [unregister_found st2 u2 hu2]
    · rw [heartbeat_found _ u2 n3 _ hg2d]
    · rw [unregister_found _ u2 ((hasId_true_iff _ u2).mpr ⟨_, hg2d⟩)]

/-- C7 witness: two concrete registrations with fresh ids "u1" and "u2";
the second body omits maxPlayers in the first call, exercising the default
of 8. -/
theorem c7_witness :
    "u1" ≠ "u2"
    ∧ (registerHandler [] "u1"
        ⟨some (.vStr "HostA"), some (.vStr "1.1.1.1"), some (.vNum 1111),
          some (.vStr "mapA"), none⟩ 1).1.returnedId = some "u1"
    ∧ (registerHandler (registerHandler [] "u1"
        ⟨some (.vStr "HostA"), some (.vStr "1.1.1.1"), some (.vNum 1111),
          some (.vStr "mapA"), none⟩ 1).2 "u2"
        ⟨some (.vStr "HostB"), some (.vStr "2.2.2.2"), some (.vNum 2222),
          some (.vStr "mapB"), some (.vNum 10)⟩ 2).1.returnedId = some "u2"
    ∧ (registerHandler [] "u1"
        ⟨some (.vStr "HostA"), some (.vStr "1.1.1.1"), some (.vNum 1111),
          some (.vStr "mapA"), none⟩ 1).2.length = 1
    ∧ (storedMatch "u1"
        ⟨some (.vStr "HostA"), some (.vStr "1.1.1.1"), some (.vNum 1111),
          some (.vStr "mapA"), none⟩ 1).maxPlayers = .vNum 8 := by
  have h := c7_register_twice []
    ⟨some (.vStr "HostA"), some (.vStr "1.1.1.1"), some (.vNum 1111),
      some (.vStr "mapA"), none⟩
    ⟨some (.vStr "HostB"), some (.vStr "2.2.2.2"), some (.vNum 2222),
      some (.vStr "mapB"), some (.vNum 10)⟩
    "u1" "u2" 1 2 3 (by decide) (by decide) (by decide) (by decide)
  exact ⟨h.1, h.2.1, h.2.2.1, h.2.2.2.1, h.2.2.2.2.2.2.2.1 rfl⟩

/-- C8: after a successful Unregister(id), for any sequence of further
operations that never registers that exact id, the id stays absent, List()
contains no view with that id, and Heartbeat/Unregister on it fail with
NotFoundError without changing the state; moreover on any registry not
holding the id (never existed or already removed), Heartbeat and Unregister
fail with NotFoundError and leave the state untouched, so repetition
fails identically. -/
theorem c8_unregister_permanent (st st' : Registry) (id : String) (ops : List Op)
    (now : Int) (hwf : WF st)
    (hun : unregisterHandler st id = (.ok, st'))
    (hops : ∀ b n, Op.opRegister id b n ∉ ops) :
    hasId (run st' ops) id = false
    ∧ (∀ v ∈ (listHandler (run st' ops) now).matchesList, v.id ≠ id)
    ∧ heartbeatHandler (run st' ops) id now = (.notFound, run st' ops)
    ∧ unregisterHandler (run st' ops) id = (.notFound, run st' ops)
    ∧ (∀ st₀ : Registry, hasId st₀ id = false →
        heartbeatHandler st₀ id now = (.notFound, st₀)
        ∧ unregisterHandler st₀ id = (.notFound, st₀)) := by
  have hcase : hasId st id = true ∧ st' = mapDelete st id := by
    by_cases h : hasId st id = true
    · rw [unregister_found st id h] at hun
      exact ⟨h, (congrArg Prod.snd hun).symm⟩
    · rw [unregister_not_found st id (by simpa using h)] at hun
      exact absurd (congrArg Prod.fst hun) (by simp)
  obtain ⟨hhas, hst'⟩ := hcase
  subst hst'
  obtain ⟨hwfF, hhasF⟩ := run_preserves_absent ops (mapDelete st id) id
    (WF_mapDelete st id hwf) (hasId_mapDelete_self st id) hops
  have hnone : mapGet (run (mapDelete st id) ops) id = none :=
    (hasId_false_iff_mapGet_none _ id).mp hhasF
  refine ⟨hhasF, ?_, heartbeat_not_found _ id now hnone,
    unregister_not_found _ id hhasF, ?_⟩
  · intro v hv hvid
    obtain ⟨p, hp, hveq, hact⟩ := mem_listHandler _ now v hv
    rw [hveq] at hvid
    have hvid' : p.2.id = id := hvid
    have hkey : p.1 = id := (hwfF.2 p hp).symm.trans hvid'
    have hmem : hasId (run (mapDelete st id) ops) p.1 = true :=
      (hasId_eq_keys_mem _ p.1).mpr (List.mem_map.mpr ⟨p, hp, rfl⟩)
    rw [hkey] at hmem
    rw [hmem] at hhasF
    cases hhasF
  · intro st₀ h0
    exact ⟨heartbeat_not_found st₀ id now ((hasId_false_iff_mapGet_none st₀ id).mp h0),
      unregister_not_found st₀ id h0⟩

/-- C8 witness: unregister the only match "a", then run a heartbeat attempt
on "a" and a listing; "a" stays absent and heartbeat/unregister fail with
NotFound, leaving the state unchanged. -/
theorem c8_witness :
    hasId (run [] [Op.opHeartbeat "a" 5, Op.opList 6]) "a" = false
    ∧ heartbeatHandler (run [] [Op.opHeartbeat "a" 5, Op.opList 6]) "a" 7
        = (.notFound, run [] [Op.opHeartbeat "a" 5, Op.opList 6])
    ∧ unregisterHandler (run [] [Op.opHeartbeat "a" 5, Op.opList 6]) "a"
        = (.notFound, run [] [Op.opHeartbeat "a" 5, Op.opList 6]) := by
  have h := c8_unregister_permanent
    [("a", (⟨"a", "h", "x", some 1, "m", .vNum 8, 0, 0, 0⟩ : Match))] [] "a"
    [Op.opHeartbeat "a" 5, Op.opList 6] 7
    (by decide) (by decide)
    (by
      intro b n hmem
      simp at hmem)
  exact ⟨h.1, h.2.2.1, h.2.2.2.1⟩

/-- C9: List() returns at most 100 entries, its total equals the length of
the returned sequence, the returned timestamp is the single clock reading
`now`, the views are exactly the activity filter, projection and truncation
computed from that one reading, and running a list operation leaves the
registry unchanged (pure read). -/
theorem c9_list_bounded_pure (st : Registry) (now : Int) :
    (listHandler st now).matchesList.length ≤ 100
    ∧ (listHandler st now).total = (listHandler st now).matchesList.length
    ∧ (listHandler st now).timestamp = now
    ∧ (listHandler st now).matchesList =
        (((st.map Prod.snd).filter
            (fun m => decide (now - m.lastHeartbeat < 120000))).map (matchView now)).take 100
    ∧ run st [Op.opList now] = st := by
  refine ⟨?_, rfl, rfl, rfl, rfl⟩
  show ((((st.map Prod.snd).filter
      (fun m => decide (now - m.lastHeartbeat < 120000))).map (matchView now)).take 100).length ≤ 100
  rw [List.length_take]
  exact min_le_left _ _

/-- C10: register performs no validation on maxPlayers: whenever the
required-field guard passes, the supplied maxPlayers value — of any JSON
shape, string, negative number, null or boolean — is stored verbatim on the
Match and the view projection echoes the stored value unchanged; only a
completely absent maxPlayers is replaced by the default 8. -/
theorem c10_maxPlayers_verbatim (st : Registry) (u : String) (b : RegisterBody)
    (now now2 : Int) (h : validationOk b = true) :
    (registerHandler st u b now).1.returnedId = some u
    ∧ mapGet (registerHandler st u b now).2 u = some (storedMatch u b now)
    ∧ (∀ v, b.maxPlayers = some v → (storedMatch u b now).maxPlayers = v)
    ∧ (b.maxPlayers = none → (storedMatch u b now).maxPlayers = .vNum 8)
    ∧ (∀ m : Match, (matchView now2 m).maxPlayers = m.maxPlayers) := by
  rw [register_ok_spec st u b now h]
  refine ⟨rfl, mapGet_mapSet_self st u (storedMatch u b now), ?_, ?_, fun m => rfl⟩
  · intro v hv
    simp [storedMatch, hv]
  · intro hv
    simp [storedMatch, hv]

/-- C10 witness: maxPlayers supplied as the string "weird" is stored and
echoed verbatim in the view. -/
theorem c10_witness :
    (registerHandler [] "u1"
      ⟨some (.vStr "H"), some (.vStr "1.2.3.4"), some (.vNum 7777),
        some (.vStr "m"), some (.vStr "weird")⟩ 5).1.returnedId = some "u1"
    ∧ mapGet (registerHandler [] "u1"
        ⟨some (.vStr "H"), some (.vStr "1.2.3.4"), some (.vNum 7777),
          some (.vStr "m"), some (.vStr "weird")⟩ 5).2 "u1"
        = some (storedMatch "u1"
            ⟨some (.vStr "H"), some (.vStr "1.2.3.4"), some (.vNum 7777),
              some (.vStr "m"), some (.vStr "weird")⟩ 5)
    ∧ (storedMatch "u1"
        ⟨some (.vStr "H"), some (.vStr "1.2.3.4"), some (.vNum 7777),
          some (.vStr "m"), some (.vStr "weird")⟩ 5).maxPlayers = .vStr "weird"
    ∧ (matchView 9 (storedMatch "u1"
        ⟨some (.vStr "H"), some (.vStr "1.2.3.4"), some (.vNum 7777),
          some (.vStr "m"), some (.vStr "weird")⟩ 5)).maxPlayers = .vStr "weird" := by
  have h := c10_maxPlayers_verbatim [] "u1"
    ⟨some (.vStr "H"), some (.vStr "1.2.3.4"), some (.vNum 7777),
      some (.vStr "m"), some (.vStr "weird")⟩ 5 9 (by decide)
  refine ⟨h.1, h.2.1, h.2.2.1 _ rfl, ?_⟩
  rw [h.2.2.2.2 (storedMatch "u1"
    ⟨some (.vStr "H"), some (.vStr "1.2.3.4"), some (.vNum 7777),
      some (.vStr "m"), some (.vStr "weird")⟩ 5), h.2.2.1 _ rfl]

end DopaLAN
